import Mathlib

/-!
# Charging loop of the bike-battery service

A shallow embedding of `chargeBike`, `postCharge` and `deleteCharge` from `main.go`.

* The `batteries` table is a list of rows; `SELECT ... WHERE id = ?` through `QueryRow` reads the
  first matching row, `UPDATE ... WHERE ...` rewrites every matching row.
* `level` and `charging_speed` are exact rationals: the arithmetic of
  `SET level = level + charging_speed` is carried out by the Store, and is taken to be exact, as
  is the `float32` into which `chargeBike` scans the level before comparing it with 100.
* Every statement carries a `Transport` flag saying whether it reaches the Store. The Go code only
  ever tests `err != nil`, so the two kinds of error are distinguished here and merged there.
* The `sql.Result` of `db.Exec` (the affected-row count) is discarded by every caller (`_, err =`),
  so `Exec` returns only the new table.
-/

namespace BikeCharge

/-- Row of the `batteries` table, the Go struct `BikeBattery`. -/
structure BikeBattery where
  ID : String
  Level : ℚ
  IsCharging : Bool
  ChargingSpeed : ℚ
deriving DecidableEq

/-- Contents of the `batteries` table. -/
abbrev Store := List BikeBattery

/-- Whether one statement reaches the Store. -/
inductive Transport where
  | ok
  | failed
deriving DecidableEq

/-- The two reasons for which a statement returns a non-nil `err`. -/
inductive StoreError where
  | noRows
  | ioFailure
deriving DecidableEq

/-- Row selected by `WHERE id = ?` in a `QueryRow`: the first row carrying the id. -/
def lookup (st : Store) (id : String) : Option BikeBattery :=
  st.find? (fun r => decide (r.ID = id))

/-- The statement `db.QueryRow("SELECT level FROM batteries WHERE id = ?", id).Scan(&level)`. -/
def queryLevel (t : Transport) (st : Store) (id : String) : Except StoreError ℚ :=
  match t with
  | .failed => .error .ioFailure
  | .ok =>
    match lookup st id with
    | some r => .ok r.Level
    | none => .error .noRows

/-- The statement
`db.QueryRow("SELECT is_charging FROM batteries WHERE id = ?", id).Scan(&isCharging)`. -/
def queryIsCharging (t : Transport) (st : Store) (id : String) : Except StoreError Bool :=
  match t with
  | .failed => .error .ioFailure
  | .ok =>
    match lookup st id with
    | some r => .ok r.IsCharging
    | none => .error .noRows

/-- Table after `UPDATE batteries SET is_charging = v WHERE id = ?`. -/
def setIsCharging (v : Bool) (st : Store) (id : String) : Store :=
  st.map (fun r => if r.ID = id then { r with IsCharging := v } else r)

/-- Table after
`UPDATE batteries SET level = level + charging_speed WHERE id = ? AND is_charging = true`. -/
def incrementLevel (st : Store) (id : String) : Store :=
  st.map (fun r =>
    if r.ID = id ∧ r.IsCharging = true then { r with Level := r.Level + r.ChargingSpeed } else r)

/-- The call `db.Exec("UPDATE batteries SET is_charging = v WHERE id = ?", id)`: an update that
matches no row is not an error. -/
def execSetIsCharging (t : Transport) (v : Bool) (st : Store) (id : String) :
    Except StoreError Store :=
  match t with
  | .failed => .error .ioFailure
  | .ok => .ok (setIsCharging v st id)

/-- The call `db.Exec("UPDATE batteries SET level = level + charging_speed WHERE id = ? AND
is_charging = true", id)`: an update that matches no row is not an error. -/
def execIncrementLevel (t : Transport) (st : Store) (id : String) : Except StoreError Store :=
  match t with
  | .failed => .error .ioFailure
  | .ok => .ok (incrementLevel st id)

/-- State of one Charging Activity (one goroutine running `chargeBike`) after a cycle:
`Running` when the loop goes on to sleep and iterate again, `Terminated` when it has returned. -/
inductive Activity where
  | Running
  | Terminated
deriving DecidableEq

/-- One iteration of the `for` loop of `chargeBike`; `tq` is the transport of the read and `te`
that of the update. -/
def chargeBikeCycle (tq te : Transport) (st : Store) (id : String) : Store × Activity :=
  match queryLevel tq st id with
  | .error _ => (st, .Terminated)
  | .ok level =>
    if level ≥ 100 then
      match execSetIsCharging te false st id with
      | .ok st' => (st', .Terminated)
      | .error _ => (st, .Terminated)
    else
      match execIncrementLevel te st id with
      | .error _ => (st, .Terminated)
      | .ok st' => (st', .Running)

/-- At most `n` consecutive cycles of one Activity with every statement reaching the Store and no
other writer; stops early when the Activity returns. -/
def runCycles : Nat → Store → String → Store × Activity
  | 0, st, _ => (st, .Running)
  | n + 1, st, id =>
    match chargeBikeCycle .ok .ok st id with
    | (st', .Running) => runCycles n st' id
    | (st', .Terminated) => (st', .Terminated)

/-- The whole loop of `chargeBike` with every statement reaching the Store and no other writer,
bounded by `fuel` iterations. Returns the final table and the number of cycles performed, or
`none` when the loop has not returned within `fuel` iterations. -/
def chargeBike : Nat → Store → String → Option (Store × Nat)
  | 0, _, _ => none
  | fuel + 1, st, id =>
    match chargeBikeCycle .ok .ok st id with
    | (st', .Terminated) => some (st', 1)
    | (st', .Running) => (chargeBike fuel st' id).map (fun p => (p.1, p.2 + 1))

/-- An HTTP answer: status code and the `message` field of the JSON body (`none`: empty body). -/
structure Response where
  status : Nat
  message : Option String
deriving DecidableEq

/-- Answer sent for a handler that returns without writing: the router's default status `200`
and an empty body. -/
def defaultResponse : Response := ⟨200, none⟩

/-- Effect of one handler call: the table afterwards, what the handler wrote with
`c.IndentedJSON` (`none` when it wrote nothing), and the ids for which it ran
`go chargeBike(id)`. -/
structure HandlerResult where
  store : Store
  written : Option Response
  spawned : List String
deriving DecidableEq

/-- The answer the client receives. -/
def HandlerResult.response (r : HandlerResult) : Response :=
  r.written.getD defaultResponse

/-- The handler `postCharge` (`POST /charge/:id`). -/
def postCharge (tq te : Transport) (st : Store) (id : String) : HandlerResult :=
  match queryIsCharging tq st id with
  | .error _ => ⟨st, some ⟨404, some "battery not found"⟩, []⟩
  | .ok isCharging =>
    if isCharging then
      ⟨st, some ⟨200, some "Charging already in progress."⟩, []⟩
    else
      match execSetIsCharging te true st id with
      | .error _ => ⟨st, some ⟨500, some "Error starting charging."⟩, []⟩
      | .ok st' => ⟨st', some ⟨201, some "Charging started."⟩, [id]⟩

/-- The handler `deleteCharge` (`DELETE /charge/:id`). -/
def deleteCharge (tq te : Transport) (st : Store) (id : String) : HandlerResult :=
  match queryIsCharging tq st id with
  | .error _ => ⟨st, some ⟨404, some "battery not found"⟩, []⟩
  | .ok isCharging =>
    if !isCharging then
      ⟨st, some ⟨200, some "Bike is not currently charging."⟩, []⟩
    else
      match execSetIsCharging te false st id with
      | .error _ => ⟨st, some ⟨200, some "Charging stopped."⟩, []⟩
      | .ok st' => ⟨st', none, []⟩

/-- The batteries table together with the ids of the live Charging Activities (one entry per
goroutine). -/
structure System where
  store : Store
  live : List String
deriving DecidableEq

/-- Atomic steps of the system: a start request, a stop request, or one cycle of the `i`-th live
Activity. -/
inductive Step where
  | start (id : String)
  | stop (id : String)
  | cycle (i : Nat)

/-- One atomic step, every statement reaching the Store. -/
def System.step (s : System) : Step → System
  | .start id =>
    let r := postCharge .ok .ok s.store id
    ⟨r.store, s.live ++ r.spawned⟩
  | .stop id =>
    let r := deleteCharge .ok .ok s.store id
    ⟨r.store, s.live ++ r.spawned⟩
  | .cycle i =>
    match s.live.get? i with
    | none => s
    | some id =>
      match chargeBikeCycle .ok .ok s.store id with
      | (st', .Running) => ⟨st', s.live⟩
      | (st', .Terminated) => ⟨st', s.live.eraseIdx i⟩

/-- A finite sequence of atomic steps. -/
def System.run (s : System) (steps : List Step) : System :=
  steps.foldl System.step s

/-- Number of live Activities bound to `id`. -/
def System.liveCount (s : System) (id : String) : Nat :=
  s.live.count id

/-- Row-by-row comparison of two tables: the same number of rows in the same order, each row
keeping its id, level and charging speed, and rows of ids other than `id` kept whole. -/
def SameButFlagOf (id : String) (st st' : Store) : Prop :=
  List.Forall₂ (fun a b => b.ID = a.ID ∧ b.Level = a.Level ∧
    b.ChargingSpeed = a.ChargingSpeed ∧ (a.ID ≠ id → b = a)) st st'

/-! ## Store lemmas -/

theorem lookup_ID {st : Store} {id : String} {r : BikeBattery} (h : lookup st id = some r) :
    r.ID = id := by
  have := List.find?_some h
  simpa using this

theorem lookup_map (f : BikeBattery → BikeBattery) (hf : ∀ r, (f r).ID = r.ID) (st : Store)
    (id : String) : lookup (st.map f) id = (lookup st id).map f := by
  induction st with
  | nil => rfl
  | cons a t ih =>
    unfold lookup at ih ⊢
    by_cases h : a.ID = id
    · simp [List.find?_cons, hf, h]
    · simp [List.find?_cons, hf, h, ih]

theorem lookup_setIsCharging (v : Bool) (st : Store) (id id' : String) :
    lookup (setIsCharging v st id) id' =
      (lookup st id').map (fun r => if r.ID = id then { r with IsCharging := v } else r) := by
  unfold setIsCharging
  apply lookup_map
  intro r
  split <;> rfl

theorem lookup_incrementLevel (st : Store) (id id' : String) :
    lookup (incrementLevel st id) id' =
      (lookup st id').map (fun r => if r.ID = id ∧ r.IsCharging = true then
        { r with Level := r.Level + r.ChargingSpeed } else r) := by
  unfold incrementLevel
  apply lookup_map
  intro r
  split <;> rfl

theorem sameButFlagOf_setIsCharging (v : Bool) (st : Store) (id : String) :
    SameButFlagOf id st (setIsCharging v st id) := by
  unfold SameButFlagOf setIsCharging
  rw [List.forall₂_map_right_iff, List.forall₂_same]
  intro r _
  by_cases h : r.ID = id <;> simp [h]

/-! ## The handlers on a healthy Store -/

theorem postCharge_idle (st : Store) (id : String) (r : BikeBattery)
    (hrow : lookup st id = some r) (hidle : r.IsCharging = false) :
    postCharge .ok .ok st id =
      ⟨setIsCharging true st id, some ⟨201, some "Charging started."⟩, [id]⟩ := by
  simp [postCharge, queryIsCharging, hrow, hidle, execSetIsCharging]

theorem postCharge_charging (st : Store) (id : String) (r : BikeBattery)
    (hrow : lookup st id = some r) (hcharging : r.IsCharging = true) :
    postCharge .ok .ok st id = ⟨st, some ⟨200, some "Charging already in progress."⟩, []⟩ := by
  simp [postCharge, queryIsCharging, hrow, hcharging]

theorem deleteCharge_charging (st : Store) (id : String) (r : BikeBattery)
    (hrow : lookup st id = some r) (hcharging : r.IsCharging = true) :
    deleteCharge .ok .ok st id = ⟨setIsCharging false st id, none, []⟩ := by
  simp [deleteCharge, queryIsCharging, hrow, hcharging, execSetIsCharging]

theorem deleteCharge_idle (st : Store) (id : String) (r : BikeBattery)
    (hrow : lookup st id = some r) (hidle : r.IsCharging = false) :
    deleteCharge .ok .ok st id =
      ⟨st, some ⟨200, some "Bike is not currently charging."⟩, []⟩ := by
  simp [deleteCharge, queryIsCharging, hrow, hidle]

theorem lookup_setIsCharging_self (v : Bool) (st : Store) (id : String) (r : BikeBattery)
    (hrow : lookup st id = some r) :
    lookup (setIsCharging v st id) id = some { r with IsCharging := v } := by
  rw [lookup_setIsCharging, hrow]
  simp [lookup_ID hrow]

theorem lookup_setIsCharging_other (v : Bool) (st : Store) (id id' : String) (h : id' ≠ id) :
    lookup (setIsCharging v st id) id' = lookup st id' := by
  rw [lookup_setIsCharging]
  cases hl : lookup st id' with
  | none => rfl
  | some a =>
    have : a.ID ≠ id := by rw [lookup_ID hl]; exact h
    simp [this]

/-- C4: on a healthy Store, `postCharge` on an existing row with `is_charging = false` answers
`201` with the message "Charging started.", spawns exactly one Activity, bound to `id`, and leaves
a table in which the row of `id` has `is_charging = true` with its level and charging speed kept,
every row keeps its id, level and charging speed, and the rows of other ids are unchanged. -/
theorem postCharge_starts_charging (st : Store) (id : String) (r : BikeBattery)
    (hrow : lookup st id = some r) (hidle : r.IsCharging = false) :
    (postCharge .ok .ok st id).response = ⟨201, some "Charging started."⟩ ∧
    (postCharge .ok .ok st id).spawned = [id] ∧
    lookup (postCharge .ok .ok st id).store id = some { r with IsCharging := true } ∧
    (∀ id', id' ≠ id → lookup (postCharge .ok .ok st id).store id' = lookup st id') ∧
    SameButFlagOf id st (postCharge .ok .ok st id).store := by
  rw [postCharge_idle st id r hrow hidle]
  refine ⟨rfl, rfl, lookup_setIsCharging_self _ _ _ _ hrow, ?_, sameButFlagOf_setIsCharging _ _ _⟩
  intro id' h
  exact lookup_setIsCharging_other _ _ _ _ h

/-- Witness of C4 on the table of the first end-to-end scenario: battery `B1` at level 40, idle,
charging speed 1. -/
theorem postCharge_starts_charging_witness :
    lookup [⟨"B1", 40, false, 1⟩] "B1" = some ⟨"B1", 40, false, 1⟩ ∧
    (postCharge .ok .ok [⟨"B1", 40, false, 1⟩] "B1").response =
      ⟨201, some "Charging started."⟩ ∧
    (postCharge .ok .ok [⟨"B1", 40, false, 1⟩] "B1").spawned = ["B1"] ∧
    lookup (postCharge .ok .ok [⟨"B1", 40, false, 1⟩] "B1").store "B1" =
      some ⟨"B1", 40, true, 1⟩ :=
  have h := postCharge_starts_charging [⟨"B1", 40, false, 1⟩] "B1" ⟨"B1", 40, false, 1⟩
    (by decide) rfl
  ⟨by decide, h.1, h.2.1, h.2.2.1⟩

/-- C2 (what the code does): on a healthy Store, `deleteCharge` on a charging battery clears
`is_charging` and keeps level and charging speed, but writes no answer at all: the message
"Charging stopped." is only written in the branch where the update failed, so the client receives
the default status `200` with an empty body. -/
theorem deleteCharge_success_writes_nothing :
    deleteCharge .ok .ok [⟨"B3", 20, true, 5⟩] "B3" = ⟨[⟨"B3", 20, false, 5⟩], none, []⟩ ∧
    (deleteCharge .ok .ok [⟨"B3", 20, true, 5⟩] "B3").response = ⟨200, none⟩ ∧
    (deleteCharge .ok .ok [⟨"B3", 20, true, 5⟩] "B3").response ≠
      ⟨200, some "Charging stopped."⟩ := by
  have h : deleteCharge .ok .ok [⟨"B3", 20, true, 5⟩] "B3" = ⟨[⟨"B3", 20, false, 5⟩], none, []⟩ := by
    rw [deleteCharge_charging _ _ ⟨"B3", 20, true, 5⟩ (by decide) rfl]
    simp [setIsCharging]
  rw [h]
  exact ⟨rfl, rfl, by decide⟩

/-- C8: on a healthy Store and an existing row, with no Activity cycle in between, a second
`postCharge` leaves the table of the first unchanged, spawns nothing more and answers `200`
"Charging already in progress."; a second `deleteCharge` leaves the table of the first unchanged,
spawns nothing and answers `200` "Bike is not currently charging.". -/
theorem start_start_and_stop_stop (st : Store) (id : String) (r : BikeBattery)
    (hrow : lookup st id = some r) :
    ((postCharge .ok .ok (postCharge .ok .ok st id).store id).store =
        (postCharge .ok .ok st id).store ∧
      ((postCharge .ok .ok st id).spawned ++
          (postCharge .ok .ok (postCharge .ok .ok st id).store id).spawned).length =
        (postCharge .ok .ok st id).spawned.length ∧
      (postCharge .ok .ok (postCharge .ok .ok st id).store id).response =
        ⟨200, some "Charging already in progress."⟩) ∧
    ((deleteCharge .ok .ok (deleteCharge .ok .ok st id).store id).store =
        (deleteCharge .ok .ok st id).store ∧
      (deleteCharge .ok .ok (deleteCharge .ok .ok st id).store id).spawned = [] ∧
      (deleteCharge .ok .ok (deleteCharge .ok .ok st id).store id).response =
        ⟨200, some "Bike is not currently charging."⟩) := by
  cases hc : r.IsCharging with
  | true =>
    have h1 := postCharge_charging st id r hrow hc
    have h2 := deleteCharge_charging st id r hrow hc
    have h3 := deleteCharge_idle _ id _ (lookup_setIsCharging_self false st id r hrow) rfl
    constructor
    · rw [h1, h1]
      exact ⟨rfl, rfl, rfl⟩
    · rw [h2, h3]
      exact ⟨rfl, rfl, rfl⟩
  | false =>
    have h1 := postCharge_idle st id r hrow hc
    have h2 := postCharge_charging _ id _ (lookup_setIsCharging_self true st id r hrow) rfl
    have h3 := deleteCharge_idle st id r hrow hc
    constructor
    · rw [h1, h2]
      exact ⟨rfl, rfl, rfl⟩
    · rw [h3, h3]
      exact ⟨rfl, rfl, rfl⟩

/-- Witness of C8 on an idle battery: the second start answers `200`, the second stop answers
`200` "Bike is not currently charging.". -/
theorem start_start_and_stop_stop_witness :
    lookup [⟨"B4", 10, false, 5⟩] "B4" = some ⟨"B4", 10, false, 5⟩ ∧
    (postCharge .ok .ok (postCharge .ok .ok [⟨"B4", 10, false, 5⟩] "B4").store "B4").response =
      ⟨200, some "Charging already in progress."⟩ ∧
    (deleteCharge .ok .ok (deleteCharge .ok .ok [⟨"B4", 10, false, 5⟩] "B4").store "B4").store =
      (deleteCharge .ok .ok [⟨"B4", 10, false, 5⟩] "B4").store :=
  have h := start_start_and_stop_stop [⟨"B4", 10, false, 5⟩] "B4" ⟨"B4", 10, false, 5⟩
    (by decide)
  ⟨by decide, h.1.2.2, h.2.1⟩

/-! ## The Charging Activity on a healthy Store -/

theorem chargeBikeCycle_full (st : Store) (id : String) (r : BikeBattery)
    (hrow : lookup st id = some r) (hfull : 100 ≤ r.Level) :
    chargeBikeCycle .ok .ok st id = (setIsCharging false st id, .Terminated) := by
  simp [chargeBikeCycle, queryLevel, hrow, hfull, execSetIsCharging]

theorem chargeBikeCycle_below (st : Store) (id : String) (r : BikeBattery)
    (hrow : lookup st id = some r) (hbelow : r.Level < 100) :
    chargeBikeCycle .ok .ok st id = (incrementLevel st id, .Running) := by
  simp [chargeBikeCycle, queryLevel, hrow, not_le.mpr hbelow, execIncrementLevel]

theorem lookup_incrementLevel_self (st : Store) (id : String) (r : BikeBattery)
    (hrow : lookup st id = some r) (hcharging : r.IsCharging = true) :
    lookup (incrementLevel st id) id = some { r with Level := r.Level + r.ChargingSpeed } := by
  rw [lookup_incrementLevel, hrow]
  simp [lookup_ID hrow, hcharging]

theorem runCycles_charging (n : Nat) : ∀ (st : Store) (id : String) (r : BikeBattery),
    lookup st id = some r → r.IsCharging = true →
    (∀ k : Nat, k < n → r.Level + k * r.ChargingSpeed < 100) →
    (runCycles n st id).2 = .Running ∧
    lookup (runCycles n st id).1 id = some { r with Level := r.Level + n * r.ChargingSpeed } := by
  induction n with
  | zero =>
    intro st id r hrow _ _
    simp [runCycles, hrow]
  | succ n ih =>
    intro st id r hrow hcharging hlt
    have h0 : r.Level < 100 := by simpa using hlt 0 (Nat.succ_pos n)
    have hstep := lookup_incrementLevel_self st id r hrow hcharging
    have hnext := ih (incrementLevel st id) id _ hstep hcharging (by
      intro k hk
      have := hlt (k + 1) (Nat.succ_lt_succ hk)
      push_cast at this
      show r.Level + r.ChargingSpeed + k * r.ChargingSpeed < 100
      linarith)
    simp only [runCycles, chargeBikeCycle_below st id r hrow h0]
    refine ⟨hnext.1, ?_⟩
    rw [hnext.2]
    congr 2
    push_cast
    ring

theorem chargeBike_of_runCycles (n : Nat) : ∀ (st st1 st2 : Store) (id : String),
    runCycles n st id = (st1, .Running) →
    chargeBikeCycle .ok .ok st1 id = (st2, .Terminated) →
    ∀ fuel : Nat, n + 1 ≤ fuel → chargeBike fuel st id = some (st2, n + 1) := by
  induction n with
  | zero =>
    intro st st1 st2 id hrun hlast fuel hfuel
    obtain ⟨f, rfl⟩ : ∃ f, fuel = f + 1 := ⟨fuel - 1, by omega⟩
    simp only [runCycles, Prod.mk.injEq, and_true] at hrun
    subst hrun
    simp [chargeBike, hlast]
  | succ n ih =>
    intro st st1 st2 id hrun hlast fuel hfuel
    obtain ⟨f, rfl⟩ : ∃ f, fuel = f + 1 := ⟨fuel - 1, by omega⟩
    rcases hc : chargeBikeCycle .ok .ok st id with ⟨st', a⟩
    cases a with
    | Terminated => simp [runCycles, hc] at hrun
    | Running =>
      simp only [runCycles, hc] at hrun
      have := ih st' st1 st2 id hrun hlast f (by omega)
      simp [chargeBike, hc, this]

/-- C7: on a healthy Store, one cycle of the Activity on a row with `level ≥ 100`, whatever its
`is_charging`, returns (the Activity is `Terminated`) and leaves a table in which the row of `id`
has `is_charging = false` and its level and charging speed kept, every row keeps its id, level
and charging speed (no increment is issued), and the rows of other ids are unchanged. -/
theorem chargeBikeCycle_full_clears_flag (st : Store) (id : String) (r : BikeBattery)
    (hrow : lookup st id = some r) (hfull : r.Level ≥ 100) :
    (chargeBikeCycle .ok .ok st id).2 = .Terminated ∧
    lookup (chargeBikeCycle .ok .ok st id).1 id = some { r with IsCharging := false } ∧
    (∀ id', id' ≠ id → lookup (chargeBikeCycle .ok .ok st id).1 id' = lookup st id') ∧
    SameButFlagOf id st (chargeBikeCycle .ok .ok st id).1 := by
  rw [chargeBikeCycle_full st id r hrow hfull]
  refine ⟨rfl, lookup_setIsCharging_self _ _ _ _ hrow, ?_, sameButFlagOf_setIsCharging _ _ _⟩
  intro id' h
  exact lookup_setIsCharging_other _ _ _ _ h

/-- Witness of C7: a battery that overshot to level 100.5 while still flagged as charging. -/
theorem chargeBikeCycle_full_clears_flag_witness :
    lookup [⟨"B2", 201 / 2, true, 1⟩] "B2" = some ⟨"B2", 201 / 2, true, 1⟩ ∧
    (201 / 2 : ℚ) ≥ 100 ∧
    (chargeBikeCycle .ok .ok [⟨"B2", 201 / 2, true, 1⟩] "B2").2 = .Terminated ∧
    lookup (chargeBikeCycle .ok .ok [⟨"B2", 201 / 2, true, 1⟩] "B2").1 "B2" =
      some ⟨"B2", 201 / 2, false, 1⟩ :=
  have hrow : lookup [⟨"B2", 201 / 2, true, 1⟩] "B2" = some ⟨"B2", 201 / 2, true, 1⟩ := by
    simp [lookup]
  have hfull : (201 / 2 : ℚ) ≥ 100 := by norm_num
  have h := chargeBikeCycle_full_clears_flag [⟨"B2", 201 / 2, true, 1⟩] "B2"
    ⟨"B2", 201 / 2, true, 1⟩ hrow hfull
  ⟨hrow, hfull, h.1, h.2.1⟩

/-- C5: on a healthy Store with no other writer, if the row of `id` is charging with level `L`
and charging speed `s`, and `L + k * s < 100` for every `k < n`, then after `n` consecutive
cycles the Activity is still `Running` and the row of `id` is the initial row with
`level = L + n * s`: id, `is_charging = true` and charging speed are unchanged. -/
theorem runCycles_level (n : Nat) (st : Store) (id : String) (r : BikeBattery)
    (hrow : lookup st id = some r) (hcharging : r.IsCharging = true)
    (hbelow : ∀ k : Nat, k < n → r.Level + k * r.ChargingSpeed < 100) :
    (runCycles n st id).2 = .Running ∧
    lookup (runCycles n st id).1 id =
      some ⟨r.ID, r.Level + n * r.ChargingSpeed, true, r.ChargingSpeed⟩ := by
  have h := runCycles_charging n st id r hrow hcharging hbelow
  refine ⟨h.1, ?_⟩
  rw [h.2, ← hcharging]

/-- Witness of C5, the integration test: level 20, charging speed 5, five cycles give 45. -/
theorem runCycles_level_witness :
    lookup [⟨"BBP_integrate_test", 20, true, 5⟩] "BBP_integrate_test" =
      some ⟨"BBP_integrate_test", 20, true, 5⟩ ∧
    (runCycles 5 [⟨"BBP_integrate_test", 20, true, 5⟩] "BBP_integrate_test").2 = .Running ∧
    lookup (runCycles 5 [⟨"BBP_integrate_test", 20, true, 5⟩] "BBP_integrate_test").1
      "BBP_integrate_test" = some ⟨"BBP_integrate_test", 45, true, 5⟩ :=
  have hrow : lookup [⟨"BBP_integrate_test", 20, true, 5⟩] "BBP_integrate_test" =
      some ⟨"BBP_integrate_test", 20, true, 5⟩ := by simp [lookup]
  have hbelow : ∀ k : Nat, k < 5 → (20 : ℚ) + k * 5 < 100 := by
    intro k hk
    have : (k : ℚ) ≤ 4 := by exact_mod_cast Nat.lt_succ_iff.mp hk
    linarith
  have h := runCycles_level 5 [⟨"BBP_integrate_test", 20, true, 5⟩] "BBP_integrate_test"
    ⟨"BBP_integrate_test", 20, true, 5⟩ hrow rfl hbelow
  ⟨hrow, h.1, by rw [h.2]; norm_num⟩

theorem chargeBike_none_of_runCycles (n : Nat) : ∀ (st st1 : Store) (id : String),
    runCycles n st id = (st1, .Running) → chargeBike n st id = none := by
  induction n with
  | zero =>
    intro st st1 id _
    rfl
  | succ n ih =>
    intro st st1 id hrun
    rcases hc : chargeBikeCycle .ok .ok st id with ⟨st', a⟩
    cases a with
    | Terminated => simp [runCycles, hc] at hrun
    | Running =>
      simp only [runCycles, hc] at hrun
      simp [chargeBike, hc, ih st' st1 id hrun]

/-- C10: on a healthy Store with no other writer, for a charging row with level `L < 100` and
charging speed `s > 0` the loop of `chargeBike` returns: with `N = ⌈(100 - L) / s⌉`, the Activity
is still `Running` after `N` cycles, every run of at most `N` iterations has not returned, and
every run of at least `N + 1` iterations returns after exactly `N + 1` cycles (`N` increments and
one final cycle) with the row of `id` at `level = L + N * s`, `is_charging = false`, id and
charging speed unchanged, where `100 ≤ L + N * s < 100 + s`. -/
theorem chargeBike_terminates (st : Store) (id : String) (r : BikeBattery) (N : Nat)
    (hrow : lookup st id = some r) (hcharging : r.IsCharging = true)
    (hbelow : r.Level < 100) (hspeed : 0 < r.ChargingSpeed)
    (hN : N = ⌈(100 - r.Level) / r.ChargingSpeed⌉₊) :
    (runCycles N st id).2 = .Running ∧
    (∀ fuel : Nat, fuel ≤ N → chargeBike fuel st id = none) ∧
    (∃ st' : Store, (∀ fuel : Nat, N + 1 ≤ fuel → chargeBike fuel st id = some (st', N + 1)) ∧
      lookup st' id = some ⟨r.ID, r.Level + N * r.ChargingSpeed, false, r.ChargingSpeed⟩) ∧
    100 ≤ r.Level + N * r.ChargingSpeed ∧
    r.Level + N * r.ChargingSpeed < 100 + r.ChargingSpeed := by
  have hlt : ∀ k : Nat, k < N → r.Level + k * r.ChargingSpeed < 100 := by
    intro k hk
    rw [hN, Nat.lt_ceil, lt_div_iff₀ hspeed] at hk
    linarith
  have hge : 100 ≤ r.Level + N * r.ChargingSpeed := by
    have := Nat.le_ceil ((100 - r.Level) / r.ChargingSpeed)
    rw [← hN, div_le_iff₀ hspeed] at this
    linarith
  have hub : r.Level + N * r.ChargingSpeed < 100 + r.ChargingSpeed := by
    have hpos : 0 ≤ (100 - r.Level) / r.ChargingSpeed :=
      div_nonneg (by linarith) hspeed.le
    have := Nat.ceil_lt_add_one hpos
    rw [← hN, ← sub_lt_iff_lt_add, lt_div_iff₀ hspeed] at this
    linarith
  have hrun := runCycles_charging N st id r hrow hcharging hlt
  have hpair : runCycles N st id = ((runCycles N st id).1, .Running) := by
    rw [← hrun.1]
  have hlast := chargeBikeCycle_full (runCycles N st id).1 id _ hrun.2 hge
  refine ⟨hrun.1, ?_, ⟨setIsCharging false (runCycles N st id).1 id, ?_, ?_⟩, hge, hub⟩
  · intro fuel hfuel
    have hf := runCycles_charging fuel st id r hrow hcharging
      (fun k hk => hlt k (lt_of_lt_of_le hk hfuel))
    exact chargeBike_none_of_runCycles fuel st (runCycles fuel st id).1 id (by rw [← hf.1])
  · exact chargeBike_of_runCycles N st _ _ id hpair hlast
  · rw [lookup_setIsCharging_self false _ id _ hrun.2]

/-- Witness of C10, the boundary case of the specification: level 99.5 and charging speed 1 end
after one increment and one final cycle, at level 100.5 with the flag cleared. -/
theorem chargeBike_terminates_witness :
    lookup [⟨"B2", 199 / 2, true, 1⟩] "B2" = some ⟨"B2", 199 / 2, true, 1⟩ ∧
    (1 : ℕ) = ⌈(100 - 199 / 2 : ℚ) / 1⌉₊ ∧
    (∃ st' : Store,
      chargeBike 2 [⟨"B2", 199 / 2, true, 1⟩] "B2" = some (st', 2) ∧
      lookup st' "B2" = some ⟨"B2", 201 / 2, false, 1⟩) :=
  have hrow : lookup [⟨"B2", 199 / 2, true, 1⟩] "B2" = some ⟨"B2", 199 / 2, true, 1⟩ := by
    simp [lookup]
  have hN : (1 : ℕ) = ⌈(100 - 199 / 2 : ℚ) / 1⌉₊ := by
    symm
    rw [Nat.ceil_eq_iff (by norm_num)]
    norm_num
  have h := chargeBike_terminates [⟨"B2", 199 / 2, true, 1⟩] "B2" ⟨"B2", 199 / 2, true, 1⟩ 1
    hrow rfl (by norm_num) (by norm_num) hN
  ⟨hrow, hN, h.2.2.1.imp fun _ hst => ⟨hst.1 2 (le_refl 2), by rw [hst.2]; norm_num⟩⟩

/-- C6 as stated fails: a row at level 99.5 with charging speed 1 lies within `[0, 100]`, and the
increment of one cycle leaves it at level 100.5. -/
theorem chargeBikeCycle_overshoots :
    lookup [⟨"B2", 199 / 2, true, 1⟩] "B2" = some ⟨"B2", 199 / 2, true, 1⟩ ∧
    (0 : ℚ) ≤ 199 / 2 ∧ (199 / 2 : ℚ) ≤ 100 ∧ (0 : ℚ) ≤ 1 ∧
    lookup (chargeBikeCycle .ok .ok [⟨"B2", 199 / 2, true, 1⟩] "B2").1 "B2" =
      some ⟨"B2", 201 / 2, true, 1⟩ ∧
    ¬ ((201 / 2 : ℚ) ≤ 100) := by
  have hrow : lookup [⟨"B2", 199 / 2, true, 1⟩] "B2" = some ⟨"B2", 199 / 2, true, 1⟩ := by
    simp [lookup]
  refine ⟨hrow, by norm_num, by norm_num, by norm_num, ?_, by norm_num⟩
  rw [chargeBikeCycle_below _ _ _ hrow (by norm_num), lookup_incrementLevel_self _ _ _ hrow rfl]
  norm_num

/-- C6 amended: whatever the transport of its two statements, one cycle of the Activity on a row
with `0 ≤ level ≤ 100` and `charging_speed ≥ 0` leaves the row of `id` with
`0 ≤ level ≤ 100 + charging_speed`, and with `level ≤ 100` when `level + charging_speed ≤ 100`
held before the cycle. -/
theorem chargeBikeCycle_level_bounds (tq te : Transport) (st : Store) (id : String)
    (r : BikeBattery) (hrow : lookup st id = some r) (h0 : 0 ≤ r.Level) (h100 : r.Level ≤ 100)
    (hspeed : 0 ≤ r.ChargingSpeed) :
    ∃ r' : BikeBattery, lookup (chargeBikeCycle tq te st id).1 id = some r' ∧
      0 ≤ r'.Level ∧ r'.Level ≤ 100 + r.ChargingSpeed ∧
      (r.Level + r.ChargingSpeed ≤ 100 → r'.Level ≤ 100) := by
  have hsame : ∃ r' : BikeBattery, lookup st id = some r' ∧
      0 ≤ r'.Level ∧ r'.Level ≤ 100 + r.ChargingSpeed ∧
      (r.Level + r.ChargingSpeed ≤ 100 → r'.Level ≤ 100) :=
    ⟨r, hrow, h0, by linarith, fun _ => h100⟩
  have hflag : ∃ r' : BikeBattery, lookup (setIsCharging false st id) id = some r' ∧
      0 ≤ r'.Level ∧ r'.Level ≤ 100 + r.ChargingSpeed ∧
      (r.Level + r.ChargingSpeed ≤ 100 → r'.Level ≤ 100) :=
    ⟨_, lookup_setIsCharging_self false st id r hrow, h0, by show r.Level ≤ _; linarith,
      fun _ => h100⟩
  have hincr : r.Level < 100 → ∃ r' : BikeBattery, lookup (incrementLevel st id) id = some r' ∧
      0 ≤ r'.Level ∧ r'.Level ≤ 100 + r.ChargingSpeed ∧
      (r.Level + r.ChargingSpeed ≤ 100 → r'.Level ≤ 100) := by
    intro hlt
    cases hc : r.IsCharging with
    | true =>
      refine ⟨_, lookup_incrementLevel_self st id r hrow hc, ?_, ?_, ?_⟩
      · show 0 ≤ r.Level + r.ChargingSpeed
        linarith
      · show r.Level + r.ChargingSpeed ≤ 100 + r.ChargingSpeed
        linarith
      · exact fun h => h
    | false =>
      refine ⟨r, ?_, h0, by linarith, fun _ => h100⟩
      rw [lookup_incrementLevel, hrow]
      simp [hc]
  cases tq with
  | failed => simpa [chargeBikeCycle, queryLevel] using hsame
  | ok =>
    by_cases hfull : 100 ≤ r.Level
    · cases te with
      | failed => simpa [chargeBikeCycle, queryLevel, hrow, hfull, execSetIsCharging] using hsame
      | ok => simpa [chargeBikeCycle, queryLevel, hrow, hfull, execSetIsCharging] using hflag
    · cases te with
      | failed =>
        simpa [chargeBikeCycle, queryLevel, hrow, hfull, execIncrementLevel] using hsame
      | ok =>
        simpa [chargeBikeCycle, queryLevel, hrow, hfull, execIncrementLevel] using
          hincr (not_le.mp hfull)

/-- Witness of C6 amended: level 99.5 with charging speed 1 stays within `[0, 101]`. -/
theorem chargeBikeCycle_level_bounds_witness :
    lookup [⟨"B2", 199 / 2, true, 1⟩] "B2" = some ⟨"B2", 199 / 2, true, 1⟩ ∧
    (0 : ℚ) ≤ 199 / 2 ∧ (199 / 2 : ℚ) ≤ 100 ∧ (0 : ℚ) ≤ 1 ∧
    ∃ r' : BikeBattery,
      lookup (chargeBikeCycle .ok .ok [⟨"B2", 199 / 2, true, 1⟩] "B2").1 "B2" = some r' ∧
      0 ≤ r'.Level ∧ r'.Level ≤ 100 + 1 ∧ ((199 / 2 : ℚ) + 1 ≤ 100 → r'.Level ≤ 100) :=
  have hrow : lookup [⟨"B2", 199 / 2, true, 1⟩] "B2" = some ⟨"B2", 199 / 2, true, 1⟩ := by
    simp [lookup]
  ⟨hrow, by norm_num, by norm_num, by norm_num,
    chargeBikeCycle_level_bounds .ok .ok [⟨"B2", 199 / 2, true, 1⟩] "B2"
      ⟨"B2", 199 / 2, true, 1⟩ hrow (by norm_num) (by norm_num) (by norm_num)⟩

/-! ## The stopped Activity -/

theorem incrementLevel_of_idle (st : Store) (id : String)
    (hidle : ∀ a ∈ st, a.ID = id → a.IsCharging = false) : incrementLevel st id = st := by
  unfold incrementLevel
  conv_rhs => rw [← List.map_id st]
  apply List.map_congr_left
  intro a ha
  by_cases h : a.ID = id
  · simp [hidle a ha h]
  · simp [h]

theorem chargeBikeCycle_stopped (st : Store) (id : String) (r : BikeBattery)
    (hrow : lookup st id = some r) (hbelow : r.Level < 100)
    (hidle : ∀ a ∈ st, a.ID = id → a.IsCharging = false) :
    chargeBikeCycle .ok .ok st id = (st, .Running) := by
  rw [chargeBikeCycle_below st id r hrow hbelow, incrementLevel_of_idle st id hidle]

theorem chargeBike_stopped_never_returns (st : Store) (id : String) (r : BikeBattery)
    (hrow : lookup st id = some r) (hbelow : r.Level < 100)
    (hidle : ∀ a ∈ st, a.ID = id → a.IsCharging = false) (fuel : Nat) :
    chargeBike fuel st id = none := by
  induction fuel with
  | zero => rfl
  | succ n ih => simp [chargeBike, chargeBikeCycle_stopped st id r hrow hbelow hidle, ih]

/-- C3 (what the code does): on the table of the explicit-stop scenario after the stop (battery
`B3` at level 20, `is_charging = false`, charging speed 5), one cycle of the Activity leaves the
table unchanged but the Activity stays `Running`: `chargeBike` tests only the error of the
increment, not its affected-row count, so the loop never returns, whatever the number of
iterations. -/
theorem chargeBikeCycle_stopped_keeps_running :
    chargeBikeCycle .ok .ok [⟨"B3", 20, false, 5⟩] "B3" =
      ([⟨"B3", 20, false, 5⟩], .Running) ∧
    (chargeBikeCycle .ok .ok [⟨"B3", 20, false, 5⟩] "B3").2 ≠ .Terminated ∧
    ∀ fuel : Nat, chargeBike fuel [⟨"B3", 20, false, 5⟩] "B3" = none := by
  have hrow : lookup [⟨"B3", 20, false, 5⟩] "B3" = some ⟨"B3", 20, false, 5⟩ := by
    simp [lookup]
  have hidle : ∀ a ∈ ([⟨"B3", 20, false, 5⟩] : Store), a.ID = "B3" → a.IsCharging = false := by
    intro a ha _
    rw [List.mem_singleton] at ha
    rw [ha]
  have hbelow : (20 : ℚ) < 100 := by norm_num
  have hcycle := chargeBikeCycle_stopped _ "B3" _ hrow hbelow hidle
  refine ⟨hcycle, ?_, chargeBike_stopped_never_returns _ "B3" _ hrow hbelow hidle⟩
  rw [hcycle]
  decide

/-! ## The system of handlers and Activities -/

/-- C1 (what the code does): from the table of the first scenario with no live Activity, the
steps start, stop, start leave two live Activities bound to `B1`, because the Activity spawned by
the first start does not return after the stop; both then increment the level, which rises by
twice the charging speed when each runs one cycle. -/
theorem two_live_activities_after_restart :
    System.liveCount
      (System.run ⟨[⟨"B1", 40, false, 1⟩], []⟩ [.start "B1", .stop "B1", .start "B1"]) "B1" = 2 ∧
    System.run ⟨[⟨"B1", 40, false, 1⟩], []⟩
        [.start "B1", .stop "B1", .cycle 0, .start "B1", .cycle 0, .cycle 1] =
      ⟨[⟨"B1", 42, true, 1⟩], ["B1", "B1"]⟩ := by
  constructor
  · decide
  · norm_num [System.run, System.step, postCharge, deleteCharge, queryIsCharging, lookup,
      execSetIsCharging, setIsCharging, chargeBikeCycle, queryLevel, execIncrementLevel,
      incrementLevel]

/-! ## Store failures on the handlers -/

theorem postCharge_read_failure (te : Transport) (st : Store) (id : String) :
    postCharge .failed te st id = ⟨st, some ⟨404, some "battery not found"⟩, []⟩ := rfl

theorem deleteCharge_read_failure (te : Transport) (st : Store) (id : String) :
    deleteCharge .failed te st id = ⟨st, some ⟨404, some "battery not found"⟩, []⟩ := rfl

/-- C9 (what the code does): with the row of `B1` present, a failed read makes both `postCharge`
and `deleteCharge` answer `404`, and a failed update makes `deleteCharge` answer `200` with the
message "Charging stopped."; only the failed update of `postCharge` is answered with `500`. -/
theorem store_failure_answers :
    lookup [⟨"B1", 40, false, 1⟩] "B1" = some ⟨"B1", 40, false, 1⟩ ∧
    (postCharge .failed .ok [⟨"B1", 40, false, 1⟩] "B1").response =
      ⟨404, some "battery not found"⟩ ∧
    (deleteCharge .failed .ok [⟨"B1", 40, true, 1⟩] "B1").response =
      ⟨404, some "battery not found"⟩ ∧
    (deleteCharge .ok .failed [⟨"B1", 40, true, 1⟩] "B1").response =
      ⟨200, some "Charging stopped."⟩ ∧
    (postCharge .ok .failed [⟨"B1", 40, false, 1⟩] "B1").response =
      ⟨500, some "Error starting charging."⟩ := by
  refine ⟨by decide, ?_, ?_, by decide, by decide⟩
  · rw [postCharge_read_failure]
    rfl
  · rw [deleteCharge_read_failure]
    rfl

end BikeCharge
